import Mathlib

/-!
# Verification of the medical price comparator's matching core

Shallow embedding, in Lean 4, of the name-resolution / suggestion / price
comparison core of the `medical_price_comparator` repository:

* `backend/app/api/analyses.py` — suggestion ranking (`get_suggestions`,
  `get_fuzzy_suggestions`), the character-set similarity scorer
  (`calculate_similarity`), the typo/abbreviation table (`is_common_typo`)
  and the comparison endpoint (`compare_analyses`);
* `backend/app/api/admin.py` — the CSV row import loop (`import_csv_data`);
* `backend/app/api/ocr.py` — the OCR candidate extractor
  (`extract_medical_analyses`, `clean_analysis_name`,
  `is_likely_analysis_line`).

Python strings are modelled as Lean `String`s manipulated through their
character lists, Python floats as exact rationals (plus explicit
infinity/NaN markers where the `float(...)` constructor can produce them),
Python dicts as insertion-ordered association lists, and the Mongo/Beanie
catalog as a list of documents in store order.  Regular-expression
machinery that operates on *fixed, literal* patterns is translated into
the equivalent character-level operations; the one open-ended regex scan
(the `medical_patterns` pass of the OCR extractor) is abstracted as an
input parameter holding the match spans it produced.
-/

namespace MedPrice

/-! ## Python string primitives -/

/-- Characters treated as whitespace by Python's `str.strip` / `\s`
(ASCII subset; the data handled by the app is ASCII/Latin text). -/
def pyIsSpace (c : Char) : Bool :=
  c = ' ' || c = '\t' || c = '\n' || c = '\x0d' || c = '\x0b' || c = '\x0c'

/-- `str.lower` on one character: ASCII letters plus the Romanian
diacritics that occur in the repository's data. -/
def pyLowerChar (c : Char) : Char :=
  if 'A' ≤ c ∧ c ≤ 'Z' then Char.ofNat (c.toNat + 32)
  else if c = 'Ă' then 'ă'
  else if c = 'Â' then 'â'
  else if c = 'Î' then 'î'
  else if c = 'Ș' then 'ș'
  else if c = 'Ț' then 'ț'
  else c

/-- `str.upper` on one character (same character repertoire). -/
def pyUpperChar (c : Char) : Char :=
  if 'a' ≤ c ∧ c ≤ 'z' then Char.ofNat (c.toNat - 32)
  else if c = 'ă' then 'Ă'
  else if c = 'â' then 'Â'
  else if c = 'î' then 'Î'
  else if c = 'ș' then 'Ș'
  else if c = 'ț' then 'Ț'
  else c

/-- `str.lower`. -/
def pyLower (s : String) : String := ⟨s.toList.map pyLowerChar⟩

/-- `str.strip()` (no argument): drop whitespace from both ends. -/
def pyStrip (s : String) : String :=
  ⟨((s.toList.dropWhile pyIsSpace).reverse.dropWhile pyIsSpace).reverse⟩

/-- `a.startswith(b)` on character lists. -/
def listStarts : List Char → List Char → Bool
  | [], _ => true
  | _ :: _, [] => false
  | a :: as, b :: bs => a = b && listStarts as bs

/-- `needle in haystack` (substring test) on character lists. -/
def listSubstr (needle : List Char) : List Char → Bool
  | [] => listStarts needle []
  | c :: cs => listStarts needle (c :: cs) || listSubstr needle cs

/-- `b.startswith(a)` for strings. -/
def pyStarts (a b : String) : Bool := listStarts a.toList b.toList

/-- `a in b` (substring) for strings. -/
def pySubstr (a b : String) : Bool := listSubstr a.toList b.toList

/-- `str.split()` (no argument): split on whitespace runs, dropping
empty pieces. -/
def splitWsGo : List Char → List Char → List String
  | [], acc => if acc = [] then [] else [⟨acc.reverse⟩]
  | c :: cs, acc =>
      if pyIsSpace c then
        if acc = [] then splitWsGo cs [] else ⟨acc.reverse⟩ :: splitWsGo cs []
      else splitWsGo cs (c :: acc)

/-- `str.split()` for strings. -/
def pySplitWs (s : String) : List String := splitWsGo s.toList []

/-- `text.split('\n')`: split on every newline, keeping empty pieces. -/
def splitNlGo : List Char → List Char → List String
  | [], acc => [⟨acc.reverse⟩]
  | c :: cs, acc =>
      if c = '\n' then ⟨acc.reverse⟩ :: splitNlGo cs [] else splitNlGo cs (c :: acc)

/-- `text.split('\n')` for strings. -/
def pySplitNl (s : String) : List String := splitNlGo s.toList []

/-! ## Similarity Scorer — `calculate_similarity` (analyses.py 189–204) -/

/-- The character list Python's `set(str.lower())` is built from. -/
def charList (s : String) : List Char := s.toList.map pyLowerChar

/-- `len(set1 & set2)`: distinct characters shared by both strings. -/
def charInterCard (a b : String) : Nat :=
  ((charList a).dedup.filter (fun c => c ∈ (charList b).dedup)).length

/-- `len(set1 | set2)`: distinct characters of either string. -/
def charUnionCard (a b : String) : Nat :=
  ((charList a) ++ (charList b)).dedup.length

/-- `calculate_similarity` from `analyses.py`: character-set Jaccard
overlap of the lowercased strings, `0.0` when either string is empty.
Floats are modelled as exact rationals. -/
def calculate_similarity (str1 str2 : String) : ℚ :=
  if str1 = "" ∨ str2 = "" then 0
  else if charUnionCard str1 str2 = 0 then 0
  else (charInterCard str1 str2 : ℚ) / (charUnionCard str1 str2 : ℚ)

lemma charList_ne_nil {s : String} (h : s ≠ "") : charList s ≠ [] := by
  cases s with
  | mk data =>
    cases data with
    | nil => exact absurd rfl h
    | cons c cs => simp [charList]

lemma charInterCard_le_unionCard (a b : String) :
    charInterCard a b ≤ charUnionCard a b := by
  unfold charInterCard charUnionCard
  have hnd : ((charList a).dedup.filter (fun c => c ∈ (charList b).dedup)).Nodup :=
    (List.nodup_dedup _).filter _
  have hsub : ((charList a).dedup.filter (fun c => c ∈ (charList b).dedup)) ⊆
      ((charList a) ++ (charList b)).dedup := by
    intro x hx
    have hxa : x ∈ (charList a).dedup := List.mem_of_mem_filter hx
    have : x ∈ charList a ++ charList b :=
      List.mem_append_left _ (List.mem_dedup.mp hxa)
    exact List.mem_dedup.mpr this
  exact (List.subperm_of_subset hnd hsub).length_le

lemma charUnionCard_pos {a b : String} (ha : a ≠ "") :
    0 < charUnionCard a b := by
  unfold charUnionCard
  rcases List.exists_mem_of_ne_nil _ (charList_ne_nil ha) with ⟨x, hx⟩
  have : x ∈ ((charList a) ++ (charList b)).dedup :=
    List.mem_dedup.mpr (List.mem_append_left _ hx)
  exact List.length_pos.mpr (List.ne_nil_of_mem this)

/-- The threshold test `calculate_similarity(x, y) > 0.6` of the fuzzy
scorer, phrased over naturals so that it evaluates by kernel reduction
(`Rat` division does not).  `simAboveThreshold_iff` proves it equal to
the rational comparison; the Python literal `0.6` is the binary64
closest to 3/5, and no Jaccard ratio with these small denominators
separates that double from 3/5. -/
def simAboveThreshold (a b : String) : Bool :=
  3 * charUnionCard a b < 5 * charInterCard a b

lemma charInterCard_left_empty (b : String) : charInterCard "" b = 0 := by
  simp [charInterCard, charList]

lemma charInterCard_right_empty (a : String) : charInterCard a "" = 0 := by
  simp [charInterCard, charList]

lemma simAboveThreshold_iff (a b : String) :
    simAboveThreshold a b = true ↔ (6 : ℚ) / 10 < calculate_similarity a b := by
  unfold simAboveThreshold calculate_similarity
  rcases eq_or_ne a "" with ha | ha
  · subst ha
    simp [charInterCard_left_empty]
    norm_num
  · rcases eq_or_ne b "" with hb | hb
    · subst hb
      simp [charInterCard_right_empty]
      norm_num
    · have hu : 0 < charUnionCard a b := charUnionCard_pos ha
      rw [if_neg (by simp [ha, hb]), if_neg (Nat.pos_iff_ne_zero.mp hu)]
      have huQ : (0 : ℚ) < (charUnionCard a b : ℚ) := by exact_mod_cast hu
      rw [div_lt_div_iff₀ (by norm_num) huQ]
      constructor
      · intro h
        have h' : 3 * charUnionCard a b < 5 * charInterCard a b := by
          simpa using h
        have : (6 : ℚ) * (charUnionCard a b : ℚ) < (charInterCard a b : ℚ) * 10 := by
          exact_mod_cast (by omega : 6 * charUnionCard a b < charInterCard a b * 10)
        exact this
      · intro h
        have h' : 6 * charUnionCard a b < charInterCard a b * 10 := by
          exact_mod_cast h
        simpa using (by omega : 3 * charUnionCard a b < 5 * charInterCard a b)

/-- **C2.** `calculate_similarity` always lands in `[0, 1]`; it is `0`
whenever either argument is empty; it is `1` on any non-empty string
paired with itself; and on two non-empty strings it equals the
character-set Jaccard ratio (shared distinct lowercased characters over
the union of distinct lowercased characters). -/
theorem calculate_similarity_spec (a b : String) :
    0 ≤ calculate_similarity a b ∧
    calculate_similarity a b ≤ 1 ∧
    ((a = "" ∨ b = "") → calculate_similarity a b = 0) ∧
    (a ≠ "" → a = b → calculate_similarity a b = 1) ∧
    (a ≠ "" → b ≠ "" →
      calculate_similarity a b =
        (charInterCard a b : ℚ) / (charUnionCard a b : ℚ)) := by
  refine ⟨?_, ?_, ?_, ?_, ?_⟩
  · unfold calculate_similarity
    split
    · exact le_refl 0
    · split
      · exact le_refl 0
      · positivity
  · unfold calculate_similarity
    split
    · exact zero_le_one
    · split
      · exact zero_le_one
      · rename_i hu
        rw [div_le_one (by exact_mod_cast Nat.pos_of_ne_zero hu)]
        exact_mod_cast charInterCard_le_unionCard a b
  · intro h
    unfold calculate_similarity
    simp [h]
  · intro ha hab
    subst hab
    have hu : charUnionCard a a ≠ 0 := Nat.pos_iff_ne_zero.mp (charUnionCard_pos ha)
    have hinter : charInterCard a a = charUnionCard a a := by
      unfold charInterCard charUnionCard
      rw [List.filter_eq_self.mpr (by intro x hx; simpa using hx)]
      rw [← List.card_toFinset, ← List.card_toFinset, List.toFinset_append,
        Finset.union_self]
    unfold calculate_similarity
    rw [if_neg (by simp [ha]), if_neg hu, hinter]
    exact div_self (by exact_mod_cast hu)
  · intro ha hb
    unfold calculate_similarity
    rw [if_neg (by simp [ha, hb])]
    split
    · rename_i hu
      rw [hu]
      norm_num
    · rfl

/-- Witness for C2 at concrete strings (including the spec's
anagram-like pair `"creat"`/`"trace"`). -/
theorem calculate_similarity_spec_witness :
    0 ≤ calculate_similarity "creat" "trace" ∧
    calculate_similarity "creat" "trace" ≤ 1 ∧
    calculate_similarity "" "abc" = 0 ∧
    calculate_similarity "hemoglobina" "hemoglobina" = 1 ∧
    calculate_similarity "ab" "abc" =
      (charInterCard "ab" "abc" : ℚ) / (charUnionCard "ab" "abc" : ℚ) :=
  ⟨(calculate_similarity_spec "creat" "trace").1,
   (calculate_similarity_spec "creat" "trace").2.1,
   (calculate_similarity_spec "" "abc").2.2.1 (Or.inl rfl),
   (calculate_similarity_spec "hemoglobina" "hemoglobina").2.2.2.1
     (by decide) rfl,
   (calculate_similarity_spec "ab" "abc").2.2.2.2 (by decide) (by decide)⟩

/-! ## Data model (models/__init__.py) -/

/-- The values Python's `float(...)` can produce.  Finite values are kept
as exact rationals: binary64 rounding is not observable in any verified
claim (only parse success/failure and equality of identically parsed
values are). -/
inductive PyFloat
  | finite (q : ℚ)
  | infinite (neg : Bool)
  | nan
  deriving DecidableEq, Repr

/-- `PriceInfo` (models/__init__.py 7–11). -/
structure PriceInfo where
  amount : PyFloat
  currency : String := "RON"
  promotional_price : Option PyFloat := none
  promotion_description : Option String := none
  deriving DecidableEq, Repr

/-- A tier-name → price dict.  Values are optional because
`ProviderPrices().dict()` stores `None` for unset tiers. -/
abbrev TierMap := List (String × Option PriceInfo)

/-- The `prices` dict of a `MedicalAnalysis`: provider-slug → tier dict. -/
abbrev PricesMap := List (String × TierMap)

/-- `MedicalAnalysis` document (models/__init__.py 21–29).  The catalog
store is modelled as a `List MedicalAnalysis` in store order. -/
structure MedicalAnalysis where
  name : String
  alternative_names : List String := []
  category : String
  description : Option String := none
  prices : PricesMap := []
  deriving DecidableEq, Repr

/-- The suggestion payload `{name, category, alternative_names}`
(analyses.py 72–76); also the shape of the hard-coded sample entries. -/
structure Suggestion where
  name : String
  category : String
  alternative_names : List String
  deriving DecidableEq, Repr

/-- `d.get(k)` on an insertion-ordered dict (association list). -/
def dictLookup {α : Type} : List (String × α) → String → Option α
  | [], _ => none
  | (k, v) :: rest, key => if k = key then some v else dictLookup rest key

/-- `d[k] = v`: replace an existing binding in place, else append
(Python dicts keep insertion order). -/
def dictInsert {α : Type} : List (String × α) → String → α → List (String × α)
  | [], key, v => [(key, v)]
  | (k, w) :: rest, key, v =>
      if k = key then (k, v) :: rest else (k, w) :: dictInsert rest key v

/-! ## Typo/Abbreviation Resolver — `is_common_typo` (analyses.py 207–236) -/

/-- The static `typo_patterns` table. -/
def typo_patterns : List (String × List String) := [
  ("hemo", ["hemoglobina", "hematocrit"]),
  ("hema", ["hematocrit", "hemoglobina"]),
  ("glice", ["glicemia", "glicemie"]),
  ("gluco", ["glucoza", "glicemia"]),
  ("cole", ["colesterol"]),
  ("chol", ["colesterol"]),
  ("creat", ["creatinina"]),
  ("uric", ["acid uric"]),
  ("bili", ["bilirubina"]),
  ("tsh", ["tirotropina"]),
  ("t4", ["tiroxina"]),
  ("t3", ["triiodotironina"]),
  ("vita", ["vitamina"]),
  ("vit", ["vitamina"])]

/-- `is_common_typo(query, targets)`: the query starts with a known
prefix and some target contains one of its associated substrings.
The single-string call sites pass a one-element list. -/
def is_common_typo (query : String) (targets : List String) : Bool :=
  typo_patterns.any fun pm =>
    pyStarts pm.1 query &&
    targets.any fun t => pm.2.any fun m => pySubstr m (pyLower t)

/-! ## Suggestion Ranker — fuzzy pass (analyses.py 93–186) -/

/-- The hard-coded `sample_analyses` reference list (analyses.py 96–147),
transcribed verbatim. -/
def sample_analyses : List Suggestion := [
  ⟨"Hemoglobina", "Hematologie", ["Hb", "Hemoglobin"]⟩,
  ⟨"Hematocrit", "Hematologie", ["Ht", "HCT"]⟩,
  ⟨"Leucocite", "Hematologie", ["WBC", "Globule albe"]⟩,
  ⟨"Trombocite", "Hematologie", ["PLT", "Plachetele"]⟩,
  ⟨"Eritrocite", "Hematologie", ["RBC", "Globule rosii"]⟩,
  ⟨"Glicemia", "Biochimie", ["Glucoza", "Glucose", "Glicemie"]⟩,
  ⟨"Colesterol", "Biochimie", ["Cholesterol", "Colesterolul"]⟩,
  ⟨"Colesterol HDL", "Biochimie", ["HDL", "Colesterol bun"]⟩,
  ⟨"Colesterol LDL", "Biochimie", ["LDL", "Colesterol rau"]⟩,
  ⟨"Trigliceride", "Biochimie", ["TG", "Trigliceridele"]⟩,
  ⟨"Creatinina", "Biochimie", ["Creatinine", "Creat"]⟩,
  ⟨"Urea", "Biochimie", ["BUN", "Azot urea"]⟩,
  ⟨"Acid uric", "Biochimie", ["Uric acid", "Acidul uric"]⟩,
  ⟨"Bilirubina totala", "Biochimie", ["Bilirubina", "TBIL"]⟩,
  ⟨"Bilirubina directa", "Biochimie", ["Bilirubina conjugata", "DBIL"]⟩,
  ⟨"AST", "Biochimie", ["ASAT", "Aspartat aminotransferaza"]⟩,
  ⟨"ALT", "Biochimie", ["ALAT", "Alanin aminotransferaza"]⟩,
  ⟨"Fosfataza alcalina", "Biochimie", ["ALP", "FA"]⟩,
  ⟨"GGT", "Biochimie", ["Gamma GT", "Gamma glutamil transferaza"]⟩,
  ⟨"Proteine totale", "Biochimie", ["Total proteins", "TP"]⟩,
  ⟨"Albumina", "Biochimie", ["Albumin", "ALB"]⟩,
  ⟨"Fierul seric", "Biochimie", ["Fe", "Iron", "Fier"]⟩,
  ⟨"Feritina", "Biochimie", ["Ferritin", "Feritina serica"]⟩,
  ⟨"Transferina", "Biochimie", ["Transferrin", "TIBC"]⟩,
  ⟨"Vitamina B12", "Vitamine", ["B12", "Cobalamina"]⟩,
  ⟨"Vitamina D", "Vitamine", ["25-OH Vitamina D", "Vit D"]⟩,
  ⟨"Acid folic", "Vitamine", ["Folati", "Vitamina B9"]⟩,
  ⟨"TSH", "Endocrinologie", ["Tirotropina", "Thyroid stimulating hormone"]⟩,
  ⟨"T4 liber", "Endocrinologie", ["FT4", "Tiroxina libera"]⟩,
  ⟨"T3 liber", "Endocrinologie", ["FT3", "Triiodotironina libera"]⟩,
  ⟨"Prolactina", "Endocrinologie", ["PRL", "Prolactin"]⟩,
  ⟨"Testosteron", "Endocrinologie", ["Testosteron total", "T"]⟩,
  ⟨"Estradiol", "Endocrinologie", ["E2", "Estrogen"]⟩,
  ⟨"Cortizol", "Endocrinologie", ["Cortisol", "Hidrocortizon"]⟩,
  ⟨"Insulina", "Endocrinologie", ["Insulin", "INS"]⟩,
  ⟨"HbA1c", "Endocrinologie", ["Hemoglobina glicata", "Hemoglobina glicosilata"]⟩,
  ⟨"PCR", "Inflamatii", ["CRP", "Proteina C reactiva"]⟩,
  ⟨"VSH", "Inflamatii", ["ESR", "Viteza de sedimentare"]⟩,
  ⟨"Fibrinogen", "Coagulare", ["Fibrinogenul", "FIB"]⟩,
  ⟨"INR", "Coagulare", ["Raport normalizat international"]⟩,
  ⟨"PTT", "Coagulare", ["aPTT", "Timpul de tromboplastina partiala"]⟩,
  ⟨"Examen urinar", "Urologie", ["Sumarul de urina", "Urina completa"]⟩,
  ⟨"Urocultura", "Urologie", ["Cultura urina", "Urine culture"]⟩,
  ⟨"Microalbumina", "Urologie", ["Albumina urinara", "MAU"]⟩,
  ⟨"PSA", "Urologie", ["Antigen prostatic specific"]⟩,
  ⟨"Beta hCG", "Ginecologie", ["hCG", "Gonadotrofina corionica"]⟩,
  ⟨"CA 15-3", "Markeri tumorali", ["Marker tumoral san"]⟩,
  ⟨"CA 125", "Markeri tumorali", ["Marker tumoral ovar"]⟩,
  ⟨"CEA", "Markeri tumorali", ["Antigen carcinoembrionar"]⟩,
  ⟨"AFP", "Markeri tumorali", ["Alfa-fetoproteina"]⟩]

/-- Fuzzy score of one reference entry (analyses.py 153–182).  The
`calculate_similarity(...) > 0.6` comparisons appear as
`simAboveThreshold`, proven equivalent by `simAboveThreshold_iff`. -/
def fuzzyScore (query_lower : String) (a : Suggestion) : Nat :=
  let name_lower := pyLower a.name
  let nameScore : Nat :=
    if pySubstr query_lower name_lower then 10
    else if pyStarts query_lower name_lower then 8
    else if (pySplitWs name_lower).any (fun w => pyStarts query_lower w) then 6
    else if simAboveThreshold query_lower name_lower then 4
    else 0
  let altScore : Nat := a.alternative_names.foldl (fun acc alt =>
    let alt_lower := pyLower alt
    acc + (if pySubstr query_lower alt_lower then 8
      else if pyStarts query_lower alt_lower then 6
      else if simAboveThreshold query_lower alt_lower then 3
      else 0)) 0
  let typoScore : Nat :=
    if is_common_typo query_lower [pyLower a.name] ||
        is_common_typo query_lower a.alternative_names then 5
    else 0
  nameScore + altScore + typoScore

/-- Stable insertion used to model Python's stable
`matches.sort(key=lambda x: x[0], reverse=True)`: an element is placed
after every earlier element with a strictly larger score and before the
first with a smaller-or-equal one.  Stable descending sorts agree on
their output, so this insertion sort computes exactly what timsort
returns. -/
def insScoreDesc (p : Nat × Suggestion) :
    List (Nat × Suggestion) → List (Nat × Suggestion)
  | [] => [p]
  | q :: qs => if p.1 < q.1 then q :: insScoreDesc p qs else p :: q :: qs

/-- The stable descending sort itself. -/
def sortScoreDesc (l : List (Nat × Suggestion)) : List (Nat × Suggestion) :=
  l.foldr insScoreDesc []

/-- `l[:n]` for the non-negative `int` slice bounds arising here. -/
def takeInt {α : Type} (n : Int) (l : List α) : List α := l.take n.toNat

/-- `get_fuzzy_suggestions(query, limit)` (analyses.py 93–186): score
every reference entry, keep strictly positive scores in first-seen
order, sort stably by descending score and truncate to `limit`. -/
def get_fuzzy_suggestions (query : String) (limit : Int) : List Suggestion :=
  let query_lower := pyLower query
  let scored := sample_analyses.foldl (fun acc a =>
      let score := fuzzyScore query_lower a
      if 0 < score then acc ++ [(score, a)] else acc) []
  (takeInt limit (sortScoreDesc scored)).map (fun m => m.2)

/-! ## Suggestion Ranker — `get_suggestions` (analyses.py 12–90)

The two Mongo `$regex` queries use the *escaped* cleaned query with
`re.IGNORECASE`: `^q` matches a document whose `name` or one of whose
`alternative_names` starts with `q` case-insensitively, the unanchored
pattern matches on a substring; both queries return documents in store
order, truncated by `.limit(limit)`.  The backing store is modelled by
the catalog list plus a failure flag for the error-handling path. -/

/-- A document matches the anchored pattern `^<escaped query>`
(case-insensitive) on `name` or any alternative name. -/
def analysisMatchesStart (q : String) (a : MedicalAnalysis) : Bool :=
  pyStarts q (pyLower a.name) ||
  a.alternative_names.any (fun alt => pyStarts q (pyLower alt))

/-- A document matches the unanchored pattern (case-insensitive
substring) on `name` or any alternative name. -/
def analysisMatchesSub (q : String) (a : MedicalAnalysis) : Bool :=
  pySubstr q (pyLower a.name) ||
  a.alternative_names.any (fun alt => pySubstr q (pyLower alt))

/-- The merge loops of analyses.py 50–61: all prefix matches first,
deduplicated by `name`; then contains-matches whose `name` is unseen,
only while fewer than `limit` results are collected. -/
def mergeResults (ex co : List MedicalAnalysis) (limit : Nat) :
    List MedicalAnalysis :=
  let firstPass := ex.foldl (fun acc a =>
    if acc.any (fun b => b.name = a.name) then acc else acc ++ [a]) []
  co.foldl (fun acc a =>
    if acc.any (fun b => b.name = a.name) || limit ≤ acc.length then acc
    else acc ++ [a]) firstPass

/-- The `all_results` list built from the two store queries
(analyses.py 35–61). -/
def mergedDb (catalog : List MedicalAnalysis) (qc : String) (limit : Int) :
    List MedicalAnalysis :=
  let ex := takeInt limit (catalog.filter (analysisMatchesStart qc))
  let co := takeInt limit (catalog.filter (analysisMatchesSub qc))
  mergeResults ex co limit.toNat

/-- Conversion of a database document to the suggestion payload
(analyses.py 70–76); `analysis.alternative_names or []` is the list
itself in this model. -/
def toSuggestion (a : MedicalAnalysis) : Suggestion :=
  ⟨a.name, a.category, a.alternative_names⟩

/-- The observable outcomes of `GET /suggestions`: the 422 limit
rejection, or a JSON body with a suggestion list and an optional error
string. -/
inductive SuggestResponse
  | invalidLimit
  | ok (suggestions : List Suggestion) (error : Option String)
  deriving DecidableEq, Repr

/-- `get_suggestions(query, limit)` (analyses.py 12–90).  `storeFails`
models a backing-store exception raised by the two `find` calls: the
handler at lines 83–90 falls back to `get_fuzzy_suggestions` on the
cleaned query with the full limit (the inner fallback never raises, so
its own `except` arm is unreachable). -/
def get_suggestions (catalog : List MedicalAnalysis) (storeFails : Bool)
    (query : String) (limit : Int) : SuggestResponse :=
  if limit ≤ 0 ∨ 20 < limit then .invalidLimit
  else if (pyStrip query).length < 2 then .ok [] none
  else
    let query_clean := pyLower (pyStrip query)
    if storeFails then .ok (get_fuzzy_suggestions query_clean limit) none
    else
      let all_results := mergedDb catalog query_clean limit
      let combined := all_results.map toSuggestion ++
        (if all_results.length < 3 then
          get_fuzzy_suggestions query_clean (limit - all_results.length)
        else [])
      .ok (combined.take limit.toNat) none

/-- The suggestion list of a response (empty for the 422 outcome). -/
def responseItems : SuggestResponse → List Suggestion
  | .invalidLimit => []
  | .ok items _ => items

/-! ## Claims C1, C5, C9 — suggestion endpoint -/

lemma nodup_key_foldl {α β : Type} (key : α → String) (f : List α → β → List α)
    (hf : ∀ acc b, f acc b = acc ∨
      ∃ a, key a ∉ acc.map key ∧ f acc b = acc ++ [a]) :
    ∀ (l : List β) (acc : List α),
      (acc.map key).Nodup → ((l.foldl f acc).map key).Nodup := by
  intro l
  induction l with
  | nil => intro acc h; simpa using h
  | cons b bs ih =>
    intro acc h
    simp only [List.foldl_cons]
    apply ih
    rcases hf acc b with he | ⟨a, hnot, he⟩
    · rw [he]; exact h
    · rw [he, List.map_append]
      simp only [List.map_cons, List.map_nil]
      rw [List.nodup_append]
      refine ⟨h, List.nodup_singleton _, ?_⟩
      intro x hx hx1
      simp only [List.mem_singleton] at hx1
      subst hx1
      exact hnot hx

lemma mergeResults_names_nodup (ex co : List MedicalAnalysis) (limit : Nat) :
    ((mergeResults ex co limit).map MedicalAnalysis.name).Nodup := by
  unfold mergeResults
  have hstep2 : ∀ (acc : List MedicalAnalysis) (a : MedicalAnalysis),
      (if acc.any (fun b => b.name = a.name) || limit ≤ acc.length then acc
        else acc ++ [a]) = acc ∨
      ∃ x, MedicalAnalysis.name x ∉ acc.map MedicalAnalysis.name ∧
        (if acc.any (fun b => b.name = a.name) || limit ≤ acc.length then acc
          else acc ++ [a]) = acc ++ [x] := by
    intro acc a
    by_cases hc : (acc.any (fun b => b.name = a.name) || limit ≤ acc.length : Bool)
    · left; simp [hc]
    · right
      refine ⟨a, ?_, by simp [hc]⟩
      simp only [Bool.or_eq_true, List.any_eq_true, decide_eq_true_eq, not_or,
        not_exists, not_and] at hc
      intro hmem
      rcases List.mem_map.mp hmem with ⟨x, hx, hxn⟩
      exact absurd hxn (hc.1 x hx)
  have hstep1 : ∀ (acc : List MedicalAnalysis) (a : MedicalAnalysis),
      (if acc.any (fun b => b.name = a.name) then acc else acc ++ [a]) = acc ∨
      ∃ x, MedicalAnalysis.name x ∉ acc.map MedicalAnalysis.name ∧
        (if acc.any (fun b => b.name = a.name) then acc else acc ++ [a]) =
          acc ++ [x] := by
    intro acc a
    by_cases hc : (acc.any (fun b => b.name = a.name) : Bool)
    · left; simp [hc]
    · right
      refine ⟨a, ?_, by simp [hc]⟩
      simp only [List.any_eq_true, decide_eq_true_eq, not_exists, not_and] at hc
      intro hmem
      rcases List.mem_map.mp hmem with ⟨x, hx, hxn⟩
      exact absurd hxn (hc x hx)
  exact nodup_key_foldl _ _ hstep2 co _
    (nodup_key_foldl _ _ hstep1 ex [] (by simp))

lemma mergedDb_names_nodup (catalog : List MedicalAnalysis) (qc : String)
    (limit : Int) :
    ((mergedDb catalog qc limit).map MedicalAnalysis.name).Nodup := by
  unfold mergedDb
  exact mergeResults_names_nodup _ _ _

lemma get_fuzzy_suggestions_length_le (q : String) (n : Int) :
    (get_fuzzy_suggestions q n).length ≤ n.toNat := by
  unfold get_fuzzy_suggestions takeInt
  simp

/-- **C1 (amended).** Every suggestion response holds at most `limit`
items, and whenever the prefix/contains merge alone already has at
least 3 results (so the fuzzy supplement is not consulted) the returned
names are pairwise distinct.  The original claim's cross-pass
deduplication fails: `get_suggestions_dedup_cex` shows a fuzzy-fallback
item repeating a database item's name. -/
theorem get_suggestions_cap_and_db_dedup (catalog : List MedicalAnalysis)
    (sf : Bool) (query : String) (limit : Int) (items : List Suggestion)
    (err : Option String)
    (h : get_suggestions catalog sf query limit = .ok items err) :
    items.length ≤ limit.toNat ∧
    (sf = false →
      3 ≤ (mergedDb catalog (pyLower (pyStrip query)) limit).length →
      (items.map Suggestion.name).Nodup) := by
  unfold get_suggestions at h
  split at h
  · exact absurd h (by simp)
  · split at h
    · rw [SuggestResponse.ok.injEq] at h
      rw [← h.1]
      exact ⟨by simp, by intro _ _; simp⟩
    · by_cases hsf : sf
      · rw [if_pos hsf] at h
        rw [SuggestResponse.ok.injEq] at h
        rw [← h.1]
        refine ⟨get_fuzzy_suggestions_length_le _ _, ?_⟩
        intro hcontra
        rw [hsf] at hcontra
        exact absurd hcontra (by simp)
      · rw [if_neg hsf] at h
        rw [SuggestResponse.ok.injEq] at h
        rw [← h.1]
        constructor
        · exact le_trans (List.length_take_le _ _) le_rfl
        · intro _ hdb
          rw [if_neg (by omega)]
          rw [List.append_nil, ← List.map_take, List.map_map]
          have hmaps : (Suggestion.name ∘ toSuggestion) = MedicalAnalysis.name := by
            funext a
            rfl
          rw [hmaps]
          exact List.Nodup.sublist ((List.take_sublist _ _).map _)
            (mergedDb_names_nodup catalog _ limit)

/-- Concrete catalog for the C1 witness: three stored analyses sharing
the query's prefix, so the merge alone fills the response. -/
def wCatalog : List MedicalAnalysis := [
  { name := "Profil lipidic", category := "pachet" },
  { name := "Profil hepatic", category := "pachet" },
  { name := "Profil renal", category := "pachet" }]

set_option maxRecDepth 40000 in
/-- Witness for the amended C1 on a concrete catalog and query. -/
theorem get_suggestions_cap_and_db_dedup_witness :
    ([⟨"Profil lipidic", "pachet", []⟩, ⟨"Profil hepatic", "pachet", []⟩,
      ⟨"Profil renal", "pachet", []⟩] : List Suggestion).length ≤
        (10 : Int).toNat ∧
    (([⟨"Profil lipidic", "pachet", []⟩, ⟨"Profil hepatic", "pachet", []⟩,
      ⟨"Profil renal", "pachet", []⟩] : List Suggestion).map
        Suggestion.name).Nodup := by
  have h := get_suggestions_cap_and_db_dedup wCatalog false "profil" 10
    [⟨"Profil lipidic", "pachet", []⟩, ⟨"Profil hepatic", "pachet", []⟩,
      ⟨"Profil renal", "pachet", []⟩] none (by decide)
  exact ⟨h.1, h.2 rfl (by decide)⟩

/-- Concrete catalog for the C1 counterexample: one stored analysis
whose name also occurs in the hard-coded fuzzy reference list. -/
def cexCatalog : List MedicalAnalysis :=
  [{ name := "Hemoglobina", alternative_names := ["Hb"],
     category := "Hematologie" }]

set_option maxRecDepth 40000 in
/-- **C1 (counterexample).** With the catalog above,
`get_suggestions("hemoglobina", 10)` returns
`["Hemoglobina", "HbA1c", "Hemoglobina", "Hematocrit", "Vitamina B12"]`:
the database hit and the fuzzy supplement repeat the name
`"Hemoglobina"`, refuting cross-pass deduplication by name. -/
theorem get_suggestions_dedup_cex :
    ¬ ((responseItems (get_suggestions cexCatalog false "hemoglobina" 10)).map
        Suggestion.name).Nodup := by
  decide

/-- **C9.** Any limit outside 1–20 is rejected with the 422 response,
regardless of catalog contents, store behaviour or query. -/
theorem get_suggestions_limit_reject (catalog : List MedicalAnalysis)
    (sf : Bool) (query : String) (limit : Int)
    (h : limit ≤ 0 ∨ 20 < limit) :
    get_suggestions catalog sf query limit = .invalidLimit := by
  unfold get_suggestions
  rw [if_pos h]

/-- Witness for C9 at limits 21 and 0. -/
theorem get_suggestions_limit_reject_witness :
    get_suggestions [] false "ab" 21 = .invalidLimit ∧
    get_suggestions [] false "ab" 0 = .invalidLimit :=
  ⟨get_suggestions_limit_reject [] false "ab" 21 (Or.inr (by norm_num)),
   get_suggestions_limit_reject [] false "ab" 0 (Or.inl le_rfl)⟩

/-- **C5.** If the backing store raises during the prefix/contains
passes, the endpoint returns exactly the fuzzy pass over the fixed
reference list (run on the cleaned query with the full limit) instead
of propagating the error. -/
theorem get_suggestions_store_error_fallback (catalog : List MedicalAnalysis)
    (query : String) (limit : Int)
    (h1 : ¬(limit ≤ 0 ∨ 20 < limit)) (h2 : 2 ≤ (pyStrip query).length) :
    get_suggestions catalog true query limit =
      .ok (get_fuzzy_suggestions (pyLower (pyStrip query)) limit) none := by
  unfold get_suggestions
  rw [if_neg h1, if_neg (by omega)]
  rfl

/-- Witness for C5 on a failing store with query `"tsh"`. -/
theorem get_suggestions_store_error_fallback_witness :
    get_suggestions [] true "tsh" 5 =
      .ok (get_fuzzy_suggestions (pyLower (pyStrip "tsh")) 5) none :=
  get_suggestions_store_error_fallback [] "tsh" 5 (by norm_num) (by decide)

/-! ## CSV import — `import_csv_data` (admin.py 15–138)

The per-row loop of lines 50–113 is embedded: field extraction through
the validated mapping, the two row-level error checks, and the
upsert against the catalog.  `float(...)` is modelled by a parser for
CPython's accepted float literals (sign, `inf`/`infinity`/`nan`
case-insensitively, decimal digits with optional single underscores
between digits, optional fraction and exponent), with finite values
kept as exact rationals. -/

/-- Consume a digit run with single underscores allowed between digits,
accumulating value and digit count; stops (leaving the rest) at the
first character that does not extend a valid run. -/
def digitRunGo : List Char → Nat → Nat → (Nat × Nat × List Char)
  | [], v, n => (v, n, [])
  | c :: cs, v, n =>
      if c.isDigit then digitRunGo cs (10 * v + (c.toNat - '0'.toNat)) (n + 1)
      else if c = '_' then
        match cs with
        | d :: ds =>
            if d.isDigit then digitRunGo ds (10 * v + (d.toNat - '0'.toNat)) (n + 1)
            else (v, n, c :: cs)
        | [] => (v, n, c :: cs)
      else (v, n, c :: cs)

/-- A `digitpart` of the CPython float grammar: at least one leading
digit.  Returns value, digit count and remaining input. -/
def parseDigitPart : List Char → Option (Nat × Nat × List Char)
  | [] => none
  | c :: rest =>
      if c.isDigit then some (digitRunGo rest (c.toNat - '0'.toNat) 1) else none

/-- Optional exponent then end of input. -/
def parseExpAndEnd (q : ℚ) : List Char → Option ℚ
  | [] => some q
  | c :: rest =>
      if c = 'e' ∨ c = 'E' then
        let signed : Bool × List Char :=
          match rest with
          | '+' :: r => (false, r)
          | '-' :: r => (true, r)
          | r => (false, r)
        match parseDigitPart signed.2 with
        | some (ev, _, rest3) =>
            if rest3 = [] then
              some (if signed.1 then q / 10 ^ ev else q * 10 ^ ev)
            else none
        | none => none
      else none

/-- An unsigned decimal number of the CPython float grammar. -/
def parseNumber (cs : List Char) : Option ℚ :=
  match parseDigitPart cs with
  | some (iv, _, rest1) =>
      match rest1 with
      | '.' :: rest2 =>
          match parseDigitPart rest2 with
          | some (fv, fn, rest3) =>
              parseExpAndEnd ((iv : ℚ) + (fv : ℚ) / 10 ^ fn) rest3
          | none => parseExpAndEnd (iv : ℚ) rest2
      | _ => parseExpAndEnd (iv : ℚ) rest1
  | none =>
      match cs with
      | '.' :: rest2 =>
          match parseDigitPart rest2 with
          | some (fv, fn, rest3) =>
              parseExpAndEnd ((fv : ℚ) / 10 ^ fn) rest3
          | none => none
      | _ => none

/-- `float(s)`: `None` models a raised `ValueError`. -/
def pyFloatOfString (s : String) : Option PyFloat :=
  let cs := ((s.toList.dropWhile pyIsSpace).reverse.dropWhile pyIsSpace).reverse
  let signed : Bool × List Char :=
    match cs with
    | '+' :: r => (false, r)
    | '-' :: r => (true, r)
    | r => (false, r)
  let lowBody := signed.2.map pyLowerChar
  if lowBody = "inf".toList ∨ lowBody = "infinity".toList then
    some (.infinite signed.1)
  else if lowBody = "nan".toList then some .nan
  else
    match parseNumber signed.2 with
    | some q => some (.finite (if signed.1 then -q else q))
    | none => none

/-- `price_str.replace(',', '.')`. -/
def pyReplaceCommaDot (s : String) : String :=
  ⟨s.toList.map (fun c => if c = ',' then '.' else c)⟩

/-- The validated field mapping: `name`, `price`, `currency` are
required (admin.py 32–37), the rest optional. -/
structure FieldMapping where
  nameCol : String
  priceCol : String
  currencyCol : String
  categoryCol : Option String := none
  priceTypeCol : Option String := none
  descriptionCol : Option String := none
  altNamesCol : Option String := none

/-- One CSV row as produced by `csv.DictReader`. -/
abbrev Row := List (String × String)

/-- `row.get(col, dflt)`. -/
def rowGet (row : Row) (col : String) (dflt : String) : String :=
  (dictLookup row col).getD dflt

/-- `';'`-split of the alternative-names cell with per-piece strip and
truthiness filter (admin.py 76–79). -/
def splitSemiGo : List Char → List Char → List String
  | [], acc => [⟨acc.reverse⟩]
  | c :: cs, acc =>
      if c = ';' then ⟨acc.reverse⟩ :: splitSemiGo cs []
      else splitSemiGo cs (c :: acc)

/-- Parse the alternative-names cell. -/
def parseAltNames (s : String) : List String :=
  if s = "" then []
  else ((splitSemiGo s.toList []).map pyStrip).filter (fun x => x ≠ "")

/-- The four declared fields of `ProviderPrices`
(models/__init__.py 14–18); `setattr` on any other name raises. -/
def providerPricesFields : List String :=
  ["normal", "premium", "premium_standard", "subscription"]

/-- `ProviderPrices()` with `price_type` set, as a dict
(`provider_prices.dict()`, admin.py 97–98 and 105). -/
def providerPricesDict (pt : String) (pi : PriceInfo) : TierMap :=
  [("normal", if pt = "normal" then some pi else none),
   ("premium", if pt = "premium" then some pi else none),
   ("premium_standard", if pt = "premium_standard" then some pi else none),
   ("subscription", if pt = "subscription" then some pi else none)]

/-- `MedicalAnalysis.find_one(MedicalAnalysis.name == n)`: first
document in store order with that exact name. -/
def findAnalysis : List MedicalAnalysis → String → Option MedicalAnalysis
  | [], _ => none
  | a :: rest, n => if a.name = n then some a else findAnalysis rest n

/-- `existing.save()`: replace the first document with the given name. -/
def catalogUpdate : List MedicalAnalysis → String →
    (MedicalAnalysis → MedicalAnalysis) → List MedicalAnalysis
  | [], _, _ => []
  | a :: rest, n, f =>
      if a.name = n then f a :: rest else a :: catalogUpdate rest n f

/-- The price overlay of admin.py 86–91: ensure the provider key, then
assign the tier wholesale with a fresh `PriceInfo`. -/
def updatePrices (a : MedicalAnalysis) (provider price_type : String)
    (pi : PriceInfo) : MedicalAnalysis :=
  { a with prices := (dictInsert a.prices provider
      (dictInsert ((dictLookup a.prices provider).getD []) price_type (some pi))) }

/-- Outcome of one row of the import loop body (admin.py 53–113): the
new catalog on success, or the row error message (exceptions inside the
body are caught and recorded per row). -/
inductive RowResult
  | ok (catalog : List MedicalAnalysis)
  | rowError (msg : String)

/-- The catalog after a row outcome (a failed row leaves it unchanged). -/
def RowResult.catalogOr : RowResult → List MedicalAnalysis → List MedicalAnalysis
  | .ok c, _ => c
  | .rowError _, c => c

/-- `analysis_name = row.get(mapping['name'], '').strip()` (admin.py 55). -/
def rowName (m : FieldMapping) (row : Row) : String :=
  pyStrip (rowGet row m.nameCol "")

/-- `price_str = row.get(mapping['price'], '0').strip()` (admin.py 56). -/
def rowPriceStr (m : FieldMapping) (row : Row) : String :=
  pyStrip (rowGet row m.priceCol "0")

/-- `currency = row.get(mapping.get('currency', 'currency'), 'RON').strip()`
(admin.py 57; the mapping always has `currency` after validation). -/
def rowCurrency (m : FieldMapping) (row : Row) : String :=
  pyStrip (rowGet row m.currencyCol "RON")

/-- `category = row.get(mapping.get('category', ''), 'general')`
(admin.py 71, no strip). -/
def rowCategory (m : FieldMapping) (row : Row) : String :=
  rowGet row (m.categoryCol.getD "") "general"

/-- `price_type = row.get(mapping.get('price_type', ''), 'normal')`
(admin.py 72, no strip). -/
def rowTier (m : FieldMapping) (row : Row) : String :=
  rowGet row (m.priceTypeCol.getD "") "normal"

/-- `description = row.get(mapping.get('description', ''), '')`
(admin.py 73). -/
def rowDescription (m : FieldMapping) (row : Row) : String :=
  rowGet row (m.descriptionCol.getD "") ""

/-- `description if description else None` (admin.py 104). -/
def rowDescriptionOpt (m : FieldMapping) (row : Row) : Option String :=
  if rowDescription m row = "" then none else some (rowDescription m row)

/-- The alternative-names extraction of admin.py 74–79. -/
def rowAltNames (m : FieldMapping) (row : Row) : List String :=
  match m.altNamesCol with
  | some col => parseAltNames (rowGet row col "")
  | none => []

/-- The document created for a previously-unseen name (admin.py 100–108). -/
def rowNewAnalysis (provider : String) (m : FieldMapping) (row : Row)
    (price : PyFloat) : MedicalAnalysis :=
  { name := rowName m row,
    alternative_names := rowAltNames m row,
    category := rowCategory m row,
    description := rowDescriptionOpt m row,
    prices := [(provider,
      providerPricesDict (rowTier m row) ⟨price, rowCurrency m row, none, none⟩)] }

/-- The body of the import loop for one row (admin.py 53–110). -/
def rowApply (provider : String) (m : FieldMapping)
    (catalog : List MedicalAnalysis) (row : Row) : RowResult :=
  if rowName m row = "" then .rowError "Missing analysis name"
  else
    match pyFloatOfString (pyReplaceCommaDot (rowPriceStr m row)) with
    | none => .rowError ("Invalid price format: " ++ rowPriceStr m row)
    | some price =>
        match findAnalysis catalog (rowName m row) with
        | some _ =>
            .ok (catalogUpdate catalog (rowName m row)
              (fun a => updatePrices a provider (rowTier m row)
                ⟨price, rowCurrency m row, none, none⟩))
        | none =>
            if rowTier m row ∈ providerPricesFields then
              .ok (catalog ++ [rowNewAnalysis provider m row price])
            else
              .rowError ("\"ProviderPrices\" object has no field \"" ++
                rowTier m row ++ "\"")

/-- Running state of the import loop (admin.py 46–48). -/
structure ImportState where
  catalog : List MedicalAnalysis
  total_records : Nat
  successful_imports : Nat
  errors : List String
  deriving DecidableEq, Repr

/-- One iteration of `for row_num, row in enumerate(csv_reader, 1)`. -/
def processRow (provider : String) (m : FieldMapping) (st : ImportState)
    (row : Row) (row_num : Nat) : ImportState :=
  let st' := { st with total_records := st.total_records + 1 }
  match rowApply provider m st'.catalog row with
  | .ok c =>
      { st' with catalog := c,
                 successful_imports := st'.successful_imports + 1 }
  | .rowError msg =>
      { st' with errors :=
          st'.errors ++ ["Row " ++ toString row_num ++ ": " ++ msg] }

/-- The whole import loop over the remaining rows. -/
def processRows (provider : String) (m : FieldMapping) :
    ImportState → List Row → Nat → ImportState
  | st, [], _ => st
  | st, row :: rest, n =>
      processRows provider m (processRow provider m st row n) rest (n + 1)

/-- The catalog produced by importing one row (errors leave it as is). -/
def importOnce (provider : String) (m : FieldMapping)
    (catalog : List MedicalAnalysis) (row : Row) : List MedicalAnalysis :=
  (rowApply provider m catalog row).catalogOr catalog

/-- The stored price entry of an (analysis, provider, tier) triple. -/
def storedPrice (catalog : List MedicalAnalysis)
    (name provider tier : String) : Option PriceInfo :=
  (findAnalysis catalog name).bind fun a =>
    (dictLookup a.prices provider).bind fun tm =>
      (dictLookup tm tier).bind id

/-! ## Claim C3 — idempotence of re-importing an identical row -/

lemma dictLookup_dictInsert_self {α : Type} (d : List (String × α))
    (k : String) (v : α) : dictLookup (dictInsert d k v) k = some v := by
  induction d with
  | nil => simp [dictInsert, dictLookup]
  | cons p rest ih =>
    obtain ⟨k', w⟩ := p
    by_cases h : k' = k
    · simp [dictInsert, dictLookup, h]
    · simp [dictInsert, dictLookup, h, ih]

lemma catalogUpdate_length (c : List MedicalAnalysis) (n : String)
    (f : MedicalAnalysis → MedicalAnalysis) :
    (catalogUpdate c n f).length = c.length := by
  induction c with
  | nil => rfl
  | cons a rest ih =>
    by_cases h : a.name = n <;> simp [catalogUpdate, h, ih]

lemma findAnalysis_catalogUpdate (c : List MedicalAnalysis) (n : String)
    (f : MedicalAnalysis → MedicalAnalysis)
    (hf : ∀ a, (f a).name = a.name) :
    findAnalysis (catalogUpdate c n f) n = (findAnalysis c n).map f := by
  induction c with
  | nil => rfl
  | cons a rest ih =>
    by_cases h : a.name = n
    · simp [catalogUpdate, findAnalysis, h, hf a]
    · simp [catalogUpdate, findAnalysis, h, ih]

lemma findAnalysis_append_none {c : List MedicalAnalysis} {n : String}
    (h : findAnalysis c n = none) (a : MedicalAnalysis) (ha : a.name = n) :
    findAnalysis (c ++ [a]) n = some a := by
  induction c with
  | nil => simp [findAnalysis, ha]
  | cons b rest ih =>
    unfold findAnalysis at h
    by_cases hb : b.name = n
    · rw [if_pos hb] at h
      exact Option.noConfusion h
    · rw [if_neg hb] at h
      rw [show (b :: rest) ++ [a] = b :: (rest ++ [a]) from rfl]
      unfold findAnalysis
      rw [if_neg hb]
      exact ih h

lemma updatePrices_name (a : MedicalAnalysis) (p t : String) (pi : PriceInfo) :
    (updatePrices a p t pi).name = a.name := rfl

lemma storedPrice_update (catalog : List MedicalAnalysis)
    (nm provider tier : String) (pi : PriceInfo) {x : MedicalAnalysis}
    (hfind : findAnalysis catalog nm = some x) :
    storedPrice
      (catalogUpdate catalog nm (fun a => updatePrices a provider tier pi))
      nm provider tier = some pi := by
  unfold storedPrice
  rw [findAnalysis_catalogUpdate catalog nm
    (fun a => updatePrices a provider tier pi) (fun a => rfl), hfind]
  simp [updatePrices, dictLookup_dictInsert_self]

lemma dictLookup_providerPricesDict_self (pt : String) (pi : PriceInfo)
    (h : pt ∈ providerPricesFields) :
    dictLookup (providerPricesDict pt pi) pt = some (some pi) := by
  simp only [providerPricesFields, List.mem_cons, List.mem_singleton,
    List.not_mem_nil, or_false] at h
  rcases h with h | h | h | h <;> subst h <;> rfl

lemma importOnce_name_empty (provider : String) (m : FieldMapping)
    (catalog : List MedicalAnalysis) (row : Row) (h : rowName m row = "") :
    importOnce provider m catalog row = catalog := by
  unfold importOnce rowApply
  rw [if_pos h]
  rfl

lemma importOnce_price_bad (provider : String) (m : FieldMapping)
    (catalog : List MedicalAnalysis) (row : Row) (h0 : ¬ rowName m row = "")
    (hp : pyFloatOfString (pyReplaceCommaDot (rowPriceStr m row)) = none) :
    importOnce provider m catalog row = catalog := by
  unfold importOnce rowApply
  rw [if_neg h0, hp]
  rfl

lemma importOnce_found (provider : String) (m : FieldMapping)
    (catalog : List MedicalAnalysis) (row : Row) (price : PyFloat)
    (x : MedicalAnalysis) (h0 : ¬ rowName m row = "")
    (hp : pyFloatOfString (pyReplaceCommaDot (rowPriceStr m row)) = some price)
    (hf : findAnalysis catalog (rowName m row) = some x) :
    importOnce provider m catalog row =
      catalogUpdate catalog (rowName m row)
        (fun a => updatePrices a provider (rowTier m row)
          ⟨price, rowCurrency m row, none, none⟩) := by
  unfold importOnce rowApply
  rw [if_neg h0, hp, hf]
  rfl

lemma importOnce_new_valid (provider : String) (m : FieldMapping)
    (catalog : List MedicalAnalysis) (row : Row) (price : PyFloat)
    (h0 : ¬ rowName m row = "")
    (hp : pyFloatOfString (pyReplaceCommaDot (rowPriceStr m row)) = some price)
    (hf : findAnalysis catalog (rowName m row) = none)
    (ht : rowTier m row ∈ providerPricesFields) :
    importOnce provider m catalog row =
      catalog ++ [rowNewAnalysis provider m row price] := by
  unfold importOnce rowApply
  rw [if_neg h0, hp, hf]
  simp only [if_pos ht]
  rfl

lemma importOnce_new_invalid (provider : String) (m : FieldMapping)
    (catalog : List MedicalAnalysis) (row : Row) (price : PyFloat)
    (h0 : ¬ rowName m row = "")
    (hp : pyFloatOfString (pyReplaceCommaDot (rowPriceStr m row)) = some price)
    (hf : findAnalysis catalog (rowName m row) = none)
    (ht : rowTier m row ∉ providerPricesFields) :
    importOnce provider m catalog row = catalog := by
  unfold importOnce rowApply
  rw [if_neg h0, hp, hf]
  simp only [if_neg ht]
  rfl

/-- **C3.** Importing the same CSV row twice is idempotent: after the
second import, the stored price entry of the row's (analysis, provider,
tier) triple is exactly what the first import stored (overwritten
wholesale, not accumulated), and the number of catalog analyses does
not grow between the first and the second import. -/
theorem import_row_idempotent (provider : String) (m : FieldMapping)
    (catalog : List MedicalAnalysis) (row : Row) :
    storedPrice (importOnce provider m (importOnce provider m catalog row) row)
        (rowName m row) provider (rowTier m row) =
      storedPrice (importOnce provider m catalog row)
        (rowName m row) provider (rowTier m row) ∧
    (importOnce provider m (importOnce provider m catalog row) row).length =
      (importOnce provider m catalog row).length := by
  by_cases h0 : rowName m row = ""
  · rw [importOnce_name_empty provider m catalog row h0,
      importOnce_name_empty provider m catalog row h0]
    exact ⟨rfl, rfl⟩
  · cases hp : pyFloatOfString (pyReplaceCommaDot (rowPriceStr m row)) with
    | none =>
      rw [importOnce_price_bad provider m catalog row h0 hp,
        importOnce_price_bad provider m catalog row h0 hp]
      exact ⟨rfl, rfl⟩
    | some price =>
      cases hf : findAnalysis catalog (rowName m row) with
      | some x =>
        have hc1 := importOnce_found provider m catalog row price x h0 hp hf
        have hf2 : findAnalysis (importOnce provider m catalog row)
            (rowName m row) = some (updatePrices x provider (rowTier m row)
              ⟨price, rowCurrency m row, none, none⟩) := by
          rw [hc1, findAnalysis_catalogUpdate catalog (rowName m row)
            (fun a => updatePrices a provider (rowTier m row)
              ⟨price, rowCurrency m row, none, none⟩) (fun a => rfl), hf]
          rfl
        have hc2 := importOnce_found provider m
          (importOnce provider m catalog row) row price _ h0 hp hf2
        constructor
        · have e2 : storedPrice
              (importOnce provider m (importOnce provider m catalog row) row)
              (rowName m row) provider (rowTier m row) =
              some ⟨price, rowCurrency m row, none, none⟩ := by
            rw [hc2]
            exact storedPrice_update _ _ _ _ _ hf2
          have e1 : storedPrice (importOnce provider m catalog row)
              (rowName m row) provider (rowTier m row) =
              some ⟨price, rowCurrency m row, none, none⟩ := by
            rw [hc1]
            exact storedPrice_update _ _ _ _ _ hf
          exact e2.trans e1.symm
        · rw [hc2, catalogUpdate_length]
      | none =>
        by_cases ht : rowTier m row ∈ providerPricesFields
        · have hc1 := importOnce_new_valid provider m catalog row price h0 hp hf ht
          have hf2 : findAnalysis (importOnce provider m catalog row)
              (rowName m row) = some (rowNewAnalysis provider m row price) := by
            rw [hc1]
            exact findAnalysis_append_none hf _ rfl
          have hc2 := importOnce_found provider m
            (importOnce provider m catalog row) row price _ h0 hp hf2
          constructor
          · have e2 : storedPrice
                (importOnce provider m (importOnce provider m catalog row) row)
                (rowName m row) provider (rowTier m row) =
                some ⟨price, rowCurrency m row, none, none⟩ := by
              rw [hc2]
              exact storedPrice_update _ _ _ _ _ hf2
            have e1 : storedPrice (importOnce provider m catalog row)
                (rowName m row) provider (rowTier m row) =
                some ⟨price, rowCurrency m row, none, none⟩ := by
              rw [hc1]
              unfold storedPrice
              rw [findAnalysis_append_none hf _ rfl]
              simp only [Option.some_bind]
              show (dictLookup [(provider,
                  providerPricesDict (rowTier m row)
                    ⟨price, rowCurrency m row, none, none⟩)] provider).bind
                  (fun tm => (dictLookup tm (rowTier m row)).bind id) = _
              rw [show dictLookup [(provider,
                  providerPricesDict (rowTier m row)
                    ⟨price, rowCurrency m row, none, none⟩)] provider =
                  some (providerPricesDict (rowTier m row)
                    ⟨price, rowCurrency m row, none, none⟩) by
                simp [dictLookup]]
              simp only [Option.some_bind]
              rw [dictLookup_providerPricesDict_self _ _ ht]
              rfl
            exact e2.trans e1.symm
          · rw [hc2, catalogUpdate_length]
        · rw [importOnce_new_invalid provider m catalog row price h0 hp hf ht,
            importOnce_new_invalid provider m catalog row price h0 hp hf ht]
          exact ⟨rfl, rfl⟩

/-! ## Claim C6 — per-row error handling of the import loop -/

/-- **C6.** A row whose mapped analysis-name field strips to empty is
recorded as a `Missing analysis name` row error, and a row whose mapped
price does not parse after comma-to-period substitution is recorded as
an `Invalid price format` row error; in both cases `total_records` is
incremented, `successful_imports` and the catalog are untouched, and
the loop proceeds with the next row. -/
theorem import_row_error_handling (provider : String) (m : FieldMapping)
    (st : ImportState) (row : Row) (rest : List Row) (n : Nat) :
    (rowName m row = "" →
      processRow provider m st row n =
        { st with total_records := st.total_records + 1,
                  errors := st.errors ++
                    ["Row " ++ toString n ++ ": " ++ "Missing analysis name"] } ∧
      processRows provider m st (row :: rest) n =
        processRows provider m
          { st with total_records := st.total_records + 1,
                    errors := st.errors ++
                      ["Row " ++ toString n ++ ": " ++ "Missing analysis name"] }
          rest (n + 1)) ∧
    (rowName m row ≠ "" →
      pyFloatOfString (pyReplaceCommaDot (rowPriceStr m row)) = none →
      processRow provider m st row n =
        { st with total_records := st.total_records + 1,
                  errors := st.errors ++
                    ["Row " ++ toString n ++ ": " ++
                      ("Invalid price format: " ++ rowPriceStr m row)] } ∧
      processRows provider m st (row :: rest) n =
        processRows provider m
          { st with total_records := st.total_records + 1,
                    errors := st.errors ++
                      ["Row " ++ toString n ++ ": " ++
                        ("Invalid price format: " ++ rowPriceStr m row)] }
          rest (n + 1)) := by
  constructor
  · intro h
    have hra : ∀ c, rowApply provider m c row =
        .rowError "Missing analysis name" := by
      intro c
      unfold rowApply
      rw [if_pos h]
    have hpr : processRow provider m st row n =
        { st with total_records := st.total_records + 1,
                  errors := st.errors ++
                    ["Row " ++ toString n ++ ": " ++ "Missing analysis name"] } := by
      unfold processRow
      simp only [hra]
    refine ⟨hpr, ?_⟩
    rw [show processRows provider m st (row :: rest) n =
      processRows provider m (processRow provider m st row n) rest (n + 1)
      from rfl, hpr]
  · intro h hp
    have hra : ∀ c, rowApply provider m c row =
        .rowError ("Invalid price format: " ++ rowPriceStr m row) := by
      intro c
      unfold rowApply
      rw [if_neg h, hp]
    have hpr : processRow provider m st row n =
        { st with total_records := st.total_records + 1,
                  errors := st.errors ++
                    ["Row " ++ toString n ++ ": " ++
                      ("Invalid price format: " ++ rowPriceStr m row)] } := by
      unfold processRow
      simp only [hra]
    refine ⟨hpr, ?_⟩
    rw [show processRows provider m st (row :: rest) n =
      processRows provider m (processRow provider m st row n) rest (n + 1)
      from rfl, hpr]

/-- The spec's scenario mapping `{name→name, price→price,
currency→currency}`. -/
def m0 : FieldMapping :=
  { nameCol := "name", priceCol := "price", currencyCol := "currency" }

/-- Empty starting state of an import run. -/
def st0 : ImportState :=
  { catalog := [], total_records := 0, successful_imports := 0, errors := [] }

/-- The spec's row with an empty name and price `"50,5"`. -/
def rowMissingName : Row := [("name", ""), ("price", "50,5"), ("currency", "RON")]

/-- The spec's row with non-numeric price `"abc"`. -/
def rowBadPrice : Row :=
  [("name", "Hemoglobina"), ("price", "abc"), ("currency", "RON")]

/-- Witness for C6 on the two scenario rows of the spec. -/
theorem import_row_error_handling_witness :
    (processRow "medlife" m0 st0 rowMissingName 1 =
      { st0 with total_records := st0.total_records + 1,
                 errors := st0.errors ++
                   ["Row " ++ toString 1 ++ ": " ++ "Missing analysis name"] } ∧
     processRows "medlife" m0 st0 [rowMissingName] 1 =
      processRows "medlife" m0
        { st0 with total_records := st0.total_records + 1,
                   errors := st0.errors ++
                     ["Row " ++ toString 1 ++ ": " ++ "Missing analysis name"] }
        [] 2) ∧
    (processRow "medlife" m0 st0 rowBadPrice 1 =
      { st0 with total_records := st0.total_records + 1,
                 errors := st0.errors ++
                   ["Row " ++ toString 1 ++ ": " ++
                     ("Invalid price format: " ++ rowPriceStr m0 rowBadPrice)] } ∧
     processRows "medlife" m0 st0 [rowBadPrice] 1 =
      processRows "medlife" m0
        { st0 with total_records := st0.total_records + 1,
                   errors := st0.errors ++
                     ["Row " ++ toString 1 ++ ": " ++
                       ("Invalid price format: " ++ rowPriceStr m0 rowBadPrice)] }
        [] 2) :=
  ⟨(import_row_error_handling "medlife" m0 st0 rowMissingName [] 1).1 (by decide),
   (import_row_error_handling "medlife" m0 st0 rowBadPrice [] 1).2
     (by decide) (by decide)⟩

/-! ## Compare endpoint — `compare_analyses` (analyses.py 291–328) -/

/-- The regex metacharacters of Python's `re` syntax.  A pattern free
of them is taken literally by `re.compile`: compilation always succeeds
and, with `re.IGNORECASE`, searching is a case-insensitive substring
test. -/
def regexMeta (c : Char) : Bool :=
  c = '.' || c = '^' || c = '$' || c = '*' || c = '+' || c = '?' ||
  c = '\x7b' || c = '\x7d' || c = '[' || c = ']' || c = '\\' || c = '|' ||
  c = '(' || c = ')'

/-- A metacharacter-free (hence literal and always-compiling) pattern. -/
def reLiteral (q : String) : Bool := q.toList.all (fun c => !regexMeta c)

/-- The `find_one` pattern `re.compile(analysis_name.strip(),
re.IGNORECASE)` searched anywhere in `name` or any alternative name.
The query string is compiled as a raw, unescaped regex; this match
predicate renders its semantics on the `reLiteral` fragment
(metacharacter-free patterns), where compiled-regex search is exactly
a case-insensitive substring test.  A query outside that fragment may
instead make `re.compile` raise `re.error`; that exception path is
modelled by `compare_analyses_full` below, and theorems that rely on
this predicate's semantics carry a `reLiteral` hypothesis or condition
on the produced match. -/
def compareMatch (q : String) (a : MedicalAnalysis) : Bool :=
  pySubstr (pyLower q) (pyLower a.name) ||
  a.alternative_names.any (fun alt => pySubstr (pyLower q) (pyLower alt))

/-- `MedicalAnalysis.find_one({...$regex...})`: the first matching
document in store order, on the `reLiteral` fragment where the pattern
compiles (the non-compiling case never reaches `find_one` — it raises
at `re.compile` and is modelled by `compare_analyses_full`'s failure
point). -/
def findFirstMatch (catalog : List MedicalAnalysis) (q : String) :
    Option MedicalAnalysis :=
  catalog.find? (fun a => compareMatch (pyStrip q) a)

/-- The provider allow-list filter (analyses.py 311–315): keep, in
allow-list order, exactly the providers present in the prices dict. -/
def filterPrices (allow : List String) (pm : PricesMap) : PricesMap :=
  allow.foldl (fun acc q =>
    match dictLookup pm q with
    | some v => dictInsert acc q v
    | none => acc) []

/-- `AnalysisQuery` (models/__init__.py 61–64). -/
structure AnalysisQuery where
  analysis_names : List String
  provider_filter : Option (List String) := none
  price_type : Option String := none

/-- One entry of the comparison response: a (possibly price-filtered)
catalog document, or the not-found placeholder dict of
analyses.py 320–326. -/
inductive CompareItem
  | doc (a : MedicalAnalysis)
  | missing (name : String) (alternative_names : List String)
      (category : String) (prices : PricesMap) (found : Bool)
  deriving DecidableEq, Repr

/-- The response entry for one requested name (analyses.py 297–326).
`if query.provider_filter:` is Python truthiness, so both `None` and an
empty allow-list skip the filter. -/
def compareItemFor (catalog : List MedicalAnalysis) (query : AnalysisQuery)
    (nm : String) : CompareItem :=
  match findFirstMatch catalog nm with
  | some a =>
      match query.provider_filter with
      | some (p :: ps) => .doc { a with prices := filterPrices (p :: ps) a.prices }
      | _ => .doc a
  | none => .missing nm [] "unknown" [] false

/-- `compare_analyses` (analyses.py 291–328), result list only. -/
def compare_analyses (catalog : List MedicalAnalysis)
    (query : AnalysisQuery) : List CompareItem :=
  query.analysis_names.map (compareItemFor catalog query)

/-! ## Claim C4 — the full compare endpoint, exception path included

`compare_analyses` above is the body of the `try` loop only.  The
endpoint wraps the *whole* loop in `try/except` (analyses.py 296–352):
an exception in any iteration — in particular the `re.error` raised by
`re.compile` on a malformed pattern such as `"("`, or a store error
from `find_one` — jumps to the handler, which appends to the
already-accumulated results one hard-coded sample entry *per requested
name*, each carrying non-empty sample prices, `found=False` and an
`error` string, and returns them with `source="error"`.  As with the
suggestion endpoint's store-failure flag, the collaborator exception is
abstracted as an optional failure point `(iteration index, str(e))`. -/

/-- One response entry of the full endpoint: a document, the try-branch
placeholder, or the except-branch sample entry (analyses.py 333–349). -/
inductive CompareEntry
  | doc (a : MedicalAnalysis)
  | missing (name : String) (alternative_names : List String)
      (category : String) (prices : PricesMap) (found : Bool)
  | errorSample (name : String) (alternative_names : List String)
      (category : String) (prices : PricesMap) (found : Bool) (error : String)
  deriving DecidableEq, Repr

/-- Inclusion of try-branch items into full-endpoint entries. -/
def CompareItem.toEntry : CompareItem → CompareEntry
  | .doc a => .doc a
  | .missing nm alts cat pr fd => .missing nm alts cat pr fd

/-- The hard-coded prices of the except-branch sample entry
(analyses.py 337–346). -/
def sampleErrorPrices : PricesMap :=
  [("reginamaria", [("normal", some ⟨.finite 15, "RON", none, none⟩),
                    ("premium", some ⟨.finite 12, "RON", none, none⟩)]),
   ("medlife", [("normal", some ⟨.finite 14, "RON", none, none⟩),
                ("premium", some ⟨.finite 0, "RON", none, none⟩)])]

/-- The two shapes of the endpoint's response: `source="database"` with
the loop's results, or `source="error"` with the partial results plus
the per-name sample entries and the error string. -/
inductive CompareResponse
  | ok (results : List CompareEntry)
  | errorFallback (results : List CompareEntry) (error : String)
  deriving DecidableEq, Repr

/-- The `try` loop with an optional failure point: iteration `k` raises
with message `msg` (e.g. `re.compile` on a malformed pattern) before
producing its item; the accumulated prefix is kept, as in the source
where `results` is shared with the handler. -/
def compareTryLoop (catalog : List MedicalAnalysis) (query : AnalysisQuery)
    (failAt : Option (Nat × String)) :
    Nat → List String → List CompareEntry → (List CompareEntry × Option String)
  | _, [], acc => (acc, none)
  | i, nm :: rest, acc =>
      match failAt with
      | some (k, msg) =>
          if i = k then (acc, some msg)
          else compareTryLoop catalog query failAt (i + 1) rest
            (acc ++ [(compareItemFor catalog query nm).toEntry])
      | none => compareTryLoop catalog query failAt (i + 1) rest
          (acc ++ [(compareItemFor catalog query nm).toEntry])

/-- The full `compare_analyses` endpoint (analyses.py 291–352),
exception handler included. -/
def compare_analyses_full (catalog : List MedicalAnalysis)
    (failAt : Option (Nat × String)) (query : AnalysisQuery) :
    CompareResponse :=
  match compareTryLoop catalog query failAt 0 query.analysis_names [] with
  | (acc, none) => .ok acc
  | (acc, some msg) =>
      .errorFallback
        (acc ++ query.analysis_names.map (fun nm =>
          .errorSample nm [] "unknown" sampleErrorPrices false msg)) msg

lemma compareTryLoop_none (catalog : List MedicalAnalysis)
    (query : AnalysisQuery) (names : List String) :
    ∀ (i : Nat) (acc : List CompareEntry),
      compareTryLoop catalog query none i names acc =
        (acc ++ names.map (fun nm => (compareItemFor catalog query nm).toEntry),
         none) := by
  induction names with
  | nil => intro i acc; simp [compareTryLoop]
  | cons nm rest ih =>
    intro i acc
    simp only [compareTryLoop, List.map_cons]
    rw [ih]
    simp

/-- With no collaborator exception, the full endpoint returns exactly
the try-loop results of `compare_analyses`. -/
lemma compare_analyses_full_none (catalog : List MedicalAnalysis)
    (query : AnalysisQuery) :
    compare_analyses_full catalog none query =
      .ok ((compare_analyses catalog query).map CompareItem.toEntry) := by
  unfold compare_analyses_full
  rw [compareTryLoop_none]
  simp [compare_analyses, List.map_map]

/-- The `str(e)` of the `re.error` that CPython's
`re.compile("(", re.IGNORECASE)` raises (a missing-parenthesis
error); the refutation below does not depend on the exact text. -/
def reErrorParenMsg : String :=
  "missing ), unterminated subpattern at position 0"

/-- **C4 (counterexample).** The query name `"("` matches no catalog
entry (its pattern never compiles: `re.compile` raises `re.error`),
yet the endpoint does not return the claimed empty-prices, non-error
placeholder: the handler returns a `found=False` entry carrying the
non-empty hard-coded sample prices and an `error` marker. -/
theorem compare_not_found_cex :
    compare_analyses_full [] (some (0, reErrorParenMsg)) ⟨["("], none, none⟩ =
      .errorFallback
        [.errorSample "(" [] "unknown" sampleErrorPrices false reErrorParenMsg]
        reErrorParenMsg ∧
    sampleErrorPrices ≠ [] :=
  ⟨rfl, by decide⟩

/-- **C4 (amended).** For every query name free of regex
metacharacters — so its compiled pattern is valid and literal — that
matches no catalog entry, and with no collaborator exception during
the loop, the compare endpoint returns the `found=False` placeholder
with empty `prices` and empty `alternative_names`, echoing the queried
name, inside the non-error (`source="database"`) response.  Malformed
patterns instead take the handler path shown by the counterexample. -/
theorem compare_not_found_amended (catalog : List MedicalAnalysis)
    (nm : String) (pf : Option (List String)) (pt : Option String)
    (hlit : reLiteral (pyStrip nm) = true)
    (h : ∀ a ∈ catalog, compareMatch (pyStrip nm) a = false) :
    compare_analyses_full catalog none ⟨[nm], pf, pt⟩ =
      .ok [.missing nm [] "unknown" [] false] := by
  rw [compare_analyses_full_none]
  have hnone : findFirstMatch catalog nm = none := by
    unfold findFirstMatch
    exact List.find?_eq_none.mpr (fun a ha => by simp [h a ha])
  unfold compare_analyses compareItemFor
  simp only [List.map_cons, List.map_nil]
  rw [hnone]
  rfl

/-- Catalog for the C4 witness. -/
def c4Catalog : List MedicalAnalysis :=
  [{ name := "Hemoglobina", alternative_names := ["Hb"],
     category := "Hematologie" }]

/-- Witness for the amended C4: the spec's `resolve("nonexistent-xyz")`
scenario against a non-empty catalog. -/
theorem compare_not_found_amended_witness :
    compare_analyses_full c4Catalog none ⟨["nonexistent-xyz"], none, none⟩ =
      .ok [.missing "nonexistent-xyz" [] "unknown" [] false] :=
  compare_not_found_amended c4Catalog "nonexistent-xyz" none none
    (by decide) (by decide)

/-! ## Claim C8 — provider allow-list filtering -/

lemma dictLookup_dictInsert_ne {α : Type} (d : List (String × α))
    (k k' : String) (v : α) (h : k' ≠ k) :
    dictLookup (dictInsert d k v) k' = dictLookup d k' := by
  induction d with
  | nil => simp [dictInsert, dictLookup, Ne.symm h]
  | cons p rest ih =>
    obtain ⟨k0, w⟩ := p
    by_cases h0 : k0 = k
    · subst h0
      have hk : ¬ k0 = k' := fun hc => h hc.symm
      simp [dictInsert, dictLookup, hk]
    · simp only [dictInsert, if_neg h0]
      by_cases h1 : k0 = k'
      · simp [dictLookup, h1]
      · simp [dictLookup, h1, ih]

lemma filterPrices_go (pm : PricesMap) (p : String) :
    ∀ (allow : List String) (acc : PricesMap),
      dictLookup (allow.foldl (fun acc q =>
        match dictLookup pm q with
        | some v => dictInsert acc q v
        | none => acc) acc) p =
      (if p ∈ allow ∧ (dictLookup pm p).isSome then dictLookup pm p
       else dictLookup acc p) := by
  intro allow
  induction allow with
  | nil => intro acc; simp
  | cons q qs ih =>
    intro acc
    simp only [List.foldl_cons]
    cases hq : dictLookup pm q with
    | some v =>
      rw [ih (dictInsert acc q v)]
      by_cases hpq : p = q
      · subst hpq
        have hsome : (dictLookup pm p).isSome := by rw [hq]; rfl
        by_cases hqs : p ∈ qs
        · simp [hqs, hsome, hq]
        · simp [hqs, hsome, hq, dictLookup_dictInsert_self]
      · rw [dictLookup_dictInsert_ne _ _ _ _ hpq]
        simp [List.mem_cons, hpq]
    | none =>
      rw [ih acc]
      by_cases hpq : p = q
      · subst hpq
        simp [hq]
      · simp [List.mem_cons, hpq]

lemma dictLookup_filterPrices (allow : List String) (pm : PricesMap)
    (p : String) :
    dictLookup (filterPrices allow pm) p =
      if p ∈ allow then dictLookup pm p else none := by
  unfold filterPrices
  rw [filterPrices_go pm p allow []]
  by_cases hmem : p ∈ allow
  · by_cases hs : (dictLookup pm p).isSome
    · simp [hmem, hs]
    · simp only [hmem, hs, and_false, if_false, if_pos hmem]
      rw [Option.not_isSome_iff_eq_none.mp hs]
      rfl
  · simp [hmem, dictLookup]

/-- **C8.** When a compare request supplies a (non-empty) provider
allow-list and the name matches a document, the returned entry carries
exactly the price sub-mappings of the allow-listed providers present on
that document: looking up any provider in the filtered dict gives the
document's sub-mapping if the provider is allow-listed, and nothing
otherwise — absent providers are silently omitted. -/
theorem compare_provider_filter (catalog : List MedicalAnalysis)
    (nm : String) (allow : List String) (pt : Option String)
    (a : MedicalAnalysis) (hne : allow ≠ [])
    (hfind : findFirstMatch catalog nm = some a) :
    compare_analyses catalog ⟨[nm], some allow, pt⟩ =
      [.doc { a with prices := filterPrices allow a.prices }] ∧
    ∀ p, dictLookup (filterPrices allow a.prices) p =
      if p ∈ allow then dictLookup a.prices p else none := by
  constructor
  · unfold compare_analyses compareItemFor
    simp only [List.map_cons, List.map_nil]
    rw [hfind]
    cases allow with
    | nil => exact absurd rfl hne
    | cons p ps => rfl
  · intro p
    exact dictLookup_filterPrices allow a.prices p

/-- Document for the C8 witness: prices at two providers. -/
def c8Entry : MedicalAnalysis :=
  { name := "Glicemia", category := "Biochimie",
    prices := [("reginamaria", [("normal", some ⟨.finite 15, "RON", none, none⟩)]),
               ("medlife", [("normal", some ⟨.finite 14, "RON", none, none⟩)])] }

/-- Catalog for the C8 witness. -/
def c8Catalog : List MedicalAnalysis := [c8Entry]

/-- Witness for C8: allow-list `["medlife", "synevo"]` where `synevo`
is absent from the document. -/
theorem compare_provider_filter_witness :
    compare_analyses c8Catalog ⟨["glicemia"], some ["medlife", "synevo"], none⟩ =
      [.doc { c8Entry with
        prices := filterPrices ["medlife", "synevo"] c8Entry.prices }] ∧
    dictLookup (filterPrices ["medlife", "synevo"] c8Entry.prices) "medlife" =
      (if "medlife" ∈ ["medlife", "synevo"]
        then dictLookup c8Entry.prices "medlife" else none) ∧
    dictLookup (filterPrices ["medlife", "synevo"] c8Entry.prices) "synevo" =
      (if "synevo" ∈ ["medlife", "synevo"]
        then dictLookup c8Entry.prices "synevo" else none) := by
  have h := compare_provider_filter c8Catalog "glicemia" ["medlife", "synevo"]
    none c8Entry (by decide) (by decide)
  exact ⟨h.1, h.2 "medlife", h.2 "synevo"⟩

/-! ## Claim C10 — compare never writes to the catalog store -/

/-- One iteration of the compare loop with the store state threaded
explicitly: the catalog is read by `find_one`; the provider filter
replaces `prices` only on the fetched response object and no
`save`/`create` is issued, so the state component is passed on
unchanged. -/
def compareStep (query : AnalysisQuery)
    (acc : List CompareItem × List MedicalAnalysis) (nm : String) :
    List CompareItem × List MedicalAnalysis :=
  (acc.1 ++ [compareItemFor acc.2 query nm], acc.2)

/-- `compare_analyses` with explicit store state. -/
def compare_analyses_st (catalog : List MedicalAnalysis)
    (query : AnalysisQuery) : List CompareItem × List MedicalAnalysis :=
  query.analysis_names.foldl (compareStep query) ([], catalog)

lemma compare_st_go (query : AnalysisQuery) (names : List String) :
    ∀ (acc : List CompareItem) (db : List MedicalAnalysis),
      names.foldl (compareStep query) (acc, db) =
        (acc ++ names.map (compareItemFor db query), db) := by
  induction names with
  | nil => intro acc db; simp
  | cons nm rest ih =>
    intro acc db
    simp only [List.foldl_cons, List.map_cons]
    rw [show compareStep query (acc, db) nm =
      (acc ++ [compareItemFor db query nm], db) from rfl, ih]
    simp

/-- **C10.** The compare operation never writes to the catalog store:
the stored state after any compare call equals the state before, and
the produced items are those of the pure result function. -/
theorem compare_preserves_catalog (catalog : List MedicalAnalysis)
    (query : AnalysisQuery) :
    (compare_analyses_st catalog query).2 = catalog ∧
    (compare_analyses_st catalog query).1 = compare_analyses catalog query := by
  unfold compare_analyses_st
  rw [compare_st_go]
  exact ⟨rfl, by simp [compare_analyses]⟩

/-! ## OCR Candidate Extractor (ocr.py 47–200)

`clean_analysis_name` and `is_likely_analysis_line` use only fixed,
literal regexes, translated here into character-level operations.  The
open-ended `medical_patterns` scan over the whole text is the one piece
of regex machinery abstracted away: the extractor takes the list of
(stripped) match spans it produced as an input parameter, so theorems
quantify over every possible outcome of that scan. -/

/-- The leading-junk class `^[-•\*\d\.\)\s]+` (ocr.py 144). -/
def leadJunk (c : Char) : Bool :=
  c = '-' || c = '•' || c = '*' || c.isDigit || c = '.' || c = ')' || pyIsSpace c

/-- `re.sub(r'[:\-\=]+.*$', '', text)` (ocr.py 145): truncate at the
first colon/dash/equals (inputs here are single lines). -/
def cutAtValueSep (cs : List Char) : List Char :=
  cs.takeWhile (fun c => !(c = ':' || c = '-' || c = '='))

/-- Split at the first `'('` that has some `')'` after it, returning
the part before the parenthesis and the part after it. -/
def splitAtParen : List Char → Option (List Char × List Char)
  | [] => none
  | c :: rest =>
      if c = '(' && rest.contains ')' then some ([], rest)
      else match splitAtParen rest with
        | some (pre, after) => some (c :: pre, after)
        | none => none

/-- `re.sub(r'\s*\([^)]*\)\s*', ' ', text)` (ocr.py 146): each
parenthetical (with surrounding whitespace) becomes one space.  Fuel is
the input length; every iteration consumes at least the two
parenthesis characters, so it never runs out. -/
def subParensGo : Nat → List Char → List Char
  | 0, cs => cs
  | fuel + 1, cs =>
      match splitAtParen cs with
      | none => cs
      | some (pre, after) =>
          let pre' := ((pre.reverse).dropWhile pyIsSpace).reverse
          let inner := after.takeWhile (fun c => c ≠ ')')
          let rest := (after.drop (inner.length + 1)).dropWhile pyIsSpace
          pre' ++ ' ' :: subParensGo fuel rest

/-- The parenthetical substitution at full fuel. -/
def subParens (cs : List Char) : List Char := subParensGo cs.length cs

/-- `re.sub(r'\s+', ' ', text)` (ocr.py 147): collapse whitespace runs
to single spaces. -/
def collapseWsGo : List Char → Bool → List Char
  | [], _ => []
  | c :: cs, prevSpace =>
      if pyIsSpace c then
        if prevSpace then collapseWsGo cs true else ' ' :: collapseWsGo cs true
      else c :: collapseWsGo cs false

/-- The Romanian diacritics treated as cased word characters. -/
def roDiacritics : List Char := "ăâîșțĂÂÎȘȚ".toList

/-- A cased character for `str.title()`. -/
def pyIsCased (c : Char) : Bool :=
  ('a' ≤ c && c ≤ 'z') || ('A' ≤ c && c ≤ 'Z') || roDiacritics.contains c

/-- `str.title()`: a cased character is uppercased after an uncased
character and lowercased after a cased one. -/
def pyTitleGo : List Char → Bool → List Char
  | [], _ => []
  | c :: cs, prevCased =>
      (if pyIsCased c then
        (if prevCased then pyLowerChar c else pyUpperChar c)
      else c) :: pyTitleGo cs (pyIsCased c)

/-- A `\w` word character (letters, digits, underscore, diacritics). -/
def pyIsWordChar (c : Char) : Bool :=
  c.isAlphanum || c = '_' || roDiacritics.contains c

/-- Apply `repl` to every maximal word-character run
(this is how the `\bDe\b`-style substitutions act). -/
def wordRunsGo (repl : String → String) : List Char → List Char → List Char
  | [], run => if run = [] then [] else (repl ⟨run.reverse⟩).toList
  | c :: cs, run =>
      if pyIsWordChar c then wordRunsGo repl cs (c :: run)
      else (if run = [] then [] else (repl ⟨run.reverse⟩).toList) ++
        c :: wordRunsGo repl cs []

/-- The particle fixes of ocr.py 154–156 (`De`/`La`/`Un` back to
lowercase; the three word-boundary substitutions have disjoint
patterns, so one pass over the words is equivalent). -/
def particleFix (w : String) : String :=
  if w = "De" then "de" else if w = "La" then "la"
  else if w = "Un" then "un" else w

/-- `clean_analysis_name` (ocr.py 141–158). -/
def clean_analysis_name (s : String) : String :=
  let t1 := s.toList.dropWhile leadJunk
  let t2 := cutAtValueSep t1
  let t3 := subParens t2
  let t4 := collapseWsGo t3 false
  let t5 := (((t4.dropWhile pyIsSpace).reverse).dropWhile pyIsSpace).reverse
  if t5 = [] then ⟨t5⟩
  else ⟨wordRunsGo particleFix (pyTitleGo (t5.map pyLowerChar) false) []⟩

/-- The administrative skip terms of ocr.py 178–182 (all literal). -/
def skipPats : List String :=
  ["pacient", "doctor", "medic", "data", "ora", "spital",
   "clinica", "laborator", "rezultat", "valori", "normale",
   "referinta", "unitate", "metoda", "pagina", "total"]

/-- Words accepted by `\b(?:acid|proteina?|vitamina?|hormon|enzima?|marker)\b`. -/
def positive1 : List String :=
  ["acid", "protein", "proteina", "vitamin", "vitamina", "hormon",
   "enzim", "enzima", "marker"]

/-- Words accepted by `\b(?:seric|ular|ic|ina?|oza?|emia?)\b`. -/
def positive2 : List String :=
  ["seric", "ular", "ic", "in", "ina", "oz", "oza", "emi", "emia"]

/-- Words accepted by `\b(?:total|liber|legat)\b`. -/
def positive3 : List String := ["total", "liber", "legat"]

/-- The maximal word-character runs of a line. -/
def wordsOfGo : List Char → List Char → List String
  | [], run => if run = [] then [] else [⟨run.reverse⟩]
  | c :: cs, run =>
      if pyIsWordChar c then wordsOfGo cs (c :: run)
      else if run = [] then wordsOfGo cs []
      else ⟨run.reverse⟩ :: wordsOfGo cs []

/-- The character class of `^[\d\s\.\,\-\+\(\)]+$` (ocr.py 174). -/
def numericOnlyChar (c : Char) : Bool :=
  c.isDigit || pyIsSpace c || c = '.' || c = ',' || c = '-' || c = '+' ||
  c = '(' || c = ')'

/-- `re.search(r'[a-z]{4,}', line)`: some run of ≥ 4 ASCII lowercase
letters. -/
def hasAlphaRun4 : List Char → Nat → Bool
  | [], _ => false
  | c :: cs, k =>
      if 'a' ≤ c && c ≤ 'z' then
        if 3 ≤ k then true else hasAlphaRun4 cs (k + 1)
      else hasAlphaRun4 cs 0

/-- `is_likely_analysis_line` (ocr.py 161–200).  The digit-density test
`digits > len(line) * 0.3` is rendered as `3·len < 10·digits`: for the
admissible lengths 3–100 the binary64 value of `len * 0.3` never
crosses an integer relative to the exact 3·len/10, so the two
comparisons agree. -/
def is_likely_analysis_line (s : String) : Bool :=
  let l := (pyLower (pyStrip s)).toList
  let n := l.length
  if n < 3 || 100 < n then false
  else if 3 * n < 10 * (l.countP Char.isDigit) then false
  else if l.all numericOnlyChar then false
  else if skipPats.any (fun p => listSubstr p.toList l) then false
  else if (wordsOfGo l []).any
    (fun w => w ∈ positive1 || w ∈ positive2 || w ∈ positive3) then true
  else hasAlphaRun4 l 0

/-- The pattern-pass accumulator step (ocr.py 119–127). -/
def ocrAddMatch (acc : List String) (mtext : String) : List String :=
  let analysis := pyStrip mtext
  if analysis ≠ "" ∧ 2 < analysis.length then
    let cleaned := clean_analysis_name analysis
    if cleaned ≠ "" ∧ cleaned ∉ acc then acc ++ [cleaned] else acc
  else acc

/-- The line-pass accumulator step (ocr.py 130–136). -/
def ocrAddLine (acc : List String) (ln : String) : List String :=
  let line := pyStrip ln
  if line ≠ "" ∧ is_likely_analysis_line line then
    let cleaned := clean_analysis_name line
    if cleaned ≠ "" ∧ cleaned ∉ acc ∧ 3 < cleaned.length then acc ++ [cleaned]
    else acc
  else acc

/-- `extract_medical_analyses` (ocr.py 47–138): pattern pass (match
spans given as `patternMatches`), then line pass, then truncation to
the first 20 findings. -/
def extract_medical_analyses (patternMatches : List String)
    (text : String) : List String :=
  ((pySplitNl text).foldl ocrAddLine
    (patternMatches.foldl ocrAddMatch [])).take 20

/-! ## Claim C7 — the extractor yields at most 20 distinct candidates -/

lemma nodup_foldl_append {β : Type} (f : List String → β → List String)
    (hf : ∀ acc b, f acc b = acc ∨ ∃ s, s ∉ acc ∧ f acc b = acc ++ [s]) :
    ∀ (l : List β) (acc : List String), acc.Nodup → (l.foldl f acc).Nodup := by
  intro l acc h
  have h' := nodup_key_foldl (fun s => s) f ?_ l acc (by simpa using h)
  · simpa using h'
  · intro acc' b
    rcases hf acc' b with he | ⟨s, hs, he⟩
    · exact Or.inl he
    · exact Or.inr ⟨s, by simpa using hs, he⟩

lemma ocrAddMatch_cases (acc : List String) (b : String) :
    ocrAddMatch acc b = acc ∨
    ∃ s, s ∉ acc ∧ ocrAddMatch acc b = acc ++ [s] := by
  simp only [ocrAddMatch]
  by_cases h1 : pyStrip b ≠ "" ∧ 2 < (pyStrip b).length
  · simp only [if_pos h1]
    by_cases h2 : clean_analysis_name (pyStrip b) ≠ "" ∧
        clean_analysis_name (pyStrip b) ∉ acc
    · exact Or.inr ⟨_, h2.2, by simp only [if_pos h2]⟩
    · exact Or.inl (by simp only [if_neg h2])
  · exact Or.inl (by simp only [if_neg h1])

lemma ocrAddLine_cases (acc : List String) (b : String) :
    ocrAddLine acc b = acc ∨
    ∃ s, s ∉ acc ∧ ocrAddLine acc b = acc ++ [s] := by
  simp only [ocrAddLine]
  by_cases h1 : pyStrip b ≠ "" ∧ is_likely_analysis_line (pyStrip b) = true
  · simp only [if_pos h1]
    by_cases h2 : clean_analysis_name (pyStrip b) ≠ "" ∧
        clean_analysis_name (pyStrip b) ∉ acc ∧
        3 < (clean_analysis_name (pyStrip b)).length
    · exact Or.inr ⟨_, h2.2.1, by simp only [if_pos h2]⟩
    · exact Or.inl (by simp only [if_neg h2])
  · exact Or.inl (by simp only [if_neg h1])

/-- **C7.** For every outcome of the pattern scan and every raw text,
the extractor returns at most 20 candidates, pairwise distinct (each
pass appends a cleaned candidate only when it is not yet present, in
first-seen order, and the result is truncated to 20). -/
theorem extract_medical_analyses_spec (patternMatches : List String)
    (text : String) :
    (extract_medical_analyses patternMatches text).length ≤ 20 ∧
    (extract_medical_analyses patternMatches text).Nodup := by
  unfold extract_medical_analyses
  refine ⟨le_trans (List.length_take_le _ _) le_rfl, ?_⟩
  apply List.Nodup.sublist (List.take_sublist _ _)
  apply nodup_foldl_append _ ocrAddLine_cases
  apply nodup_foldl_append _ ocrAddMatch_cases
  exact List.nodup_nil

end MedPrice
